import Mathlib

/-!
Shallow embedding of the ctmslib TI COFF reader (`coff.py`) and the
integer-alignment helper (`dataops.py`).

Byte buffers are `List Nat` (one entry per byte).  Multi-byte fields are
read little-endian.  Python `MemoryError`s become constructors of
`CoffError`; fallible construction returns `Except CoffError _`.
Section names are kept as the raw byte sequences read from the image
(Python decodes them to `str`; UTF-8 decoding is injective, so equality
of decoded names coincides with equality of the byte sequences).
-/

/-- Byte at index `i` of a buffer (0 past the end; all reads below are
within validated bounds). -/
def byteAt (b : List Nat) (i : Nat) : Nat := b.getD i 0

/-- Little-endian 16-bit read at byte offset `i`. -/
def readU16 (b : List Nat) (i : Nat) : Nat :=
  byteAt b i + 256 * byteAt b (i + 1)

/-- Little-endian 32-bit read at byte offset `i`. -/
def readU32 (b : List Nat) (i : Nat) : Nat :=
  byteAt b i + 256 * byteAt b (i + 1) + 65536 * byteAt b (i + 2) +
    16777216 * byteAt b (i + 3)

/-- Python slice `b[start : start + len]` for non-negative bounds
(clamped at the end of the buffer, as in Python). -/
def pySlice (b : List Nat) (start len : Nat) : List Nat :=
  (b.drop start).take len

/-- The distinct errors raised by `coff.py` (each Python `MemoryError`
message becomes one constructor). -/
inductive CoffError where
  | notValidImage : CoffError
  | badMagic (expected actual : Nat) : CoffError
  | invalidTargetId : CoffError
  | invalidSectionTable : CoffError
  | invalidSymbolTable : CoffError
  | invalidStringTable : CoffError
  | sectionNoValidName (idx : Nat) : CoffError
  | sectionNoValidData (idx : Nat) : CoffError
  | duplicateSection (name : List Nat) : CoffError
deriving DecidableEq, Repr

deriving instance DecidableEq for Except

/-- `CoffSectionFlags.TEXT`. -/
def FLAG_TEXT : Nat := 0x20

/-- `CoffSectionFlags.DATA`. -/
def FLAG_DATA : Nat := 0x40

/-- `CoffSectionFlags.BSS`. -/
def FLAG_BSS : Nat := 0x80

/-- `CoffSectionFlags.ALLOC_MASK = TEXT | DATA | BSS`. -/
def ALLOC_MASK : Nat := FLAG_TEXT ||| FLAG_DATA ||| FLAG_BSS

/-- `CoffSectionFlags.is_allocated`: some bit of the alloc mask is set. -/
def is_allocated (flags : Nat) : Bool := flags &&& ALLOC_MASK != 0

/-- `CoffImage.MAGIC`. -/
def MAGIC : Nat := 0x0108

/-- `CoffImage.HDR_ENT_SIZE`. -/
def HDR_ENT_SIZE : Nat := 50

/-- `CoffSection.ENT_SIZE`. -/
def SECT_ENT_SIZE : Nat := 48

/-- `CoffSymbol.ENT_SIZE`. -/
def SYM_ENT_SIZE : Nat := 18

/-- `CoffImage.NAME_ENT_SIZE`. -/
def NAME_ENT_SIZE : Nat := 8

/-- `CoffImage._blens` lookup with its default:
`CoffImage._blens[tid] if tid in CoffImage._blens else 1` where
`_blens = {0x9D: 2, 0x98: 2}`. -/
def coffBlens (tid : Nat) : Nat :=
  if tid = 0x9D then 2 else if tid = 0x98 then 2 else 1

/-- A section of a TI COFF image (`CoffSection`): the fields stored by
`CoffSection._load`.  The shared image buffer itself is not stored;
`CoffSection.data` takes the current buffer, which models the Python
property re-slicing the shared `bytearray` on every access. -/
structure CoffSection where
  name : List Nat
  idx : Nat
  paddr : Nat
  vaddr : Nat
  daddr : Nat
  dlen : Nat
  flags : Nat
deriving DecidableEq, Repr

/-- `CoffSection._load`: validates the name and the data extent, scales
the data length by `blen` when the section is allocated.  `ent j` is the
`j`-th 32-bit field of the 48-byte section entry; `dataLen` is the
length of the image buffer. -/
def CoffSection.load (name : Option (List Nat)) (idx : Nat) (ent : Nat → Nat)
    (dataLen : Nat) (blen : Nat) : Except CoffError CoffSection :=
  match name with
  | none => .error (.sectionNoValidName idx)
  | some nm =>
    let paddr := ent 2
    let vaddr := ent 3
    let dlen0 := ent 4
    let daddr := ent 5
    let flags := ent 10
    let dlen := if is_allocated flags then dlen0 * blen else dlen0
    if daddr + dlen > dataLen then .error (.sectionNoValidData idx)
    else .ok { name := nm, idx := idx, paddr := paddr, vaddr := vaddr,
               daddr := daddr, dlen := dlen, flags := flags }

/-- `CoffSection.data` property: the sub-range
`buf[daddr : daddr + dlen]` of the shared image buffer `buf`. -/
def CoffSection.data (s : CoffSection) (buf : List Nat) : List Nat :=
  pySlice buf s.daddr s.dlen

/-- `CoffImage._get_str`: bytes of `data` up to the first NUL byte. -/
def get_str (data : List Nat) : List Nat := data.takeWhile (fun c => c != 0)

/-- `CoffImage._get_ent_name`: resolves a section name, inline (8 bytes
at the section entry) or via the string table; absent (`none`) when the
maximal readable length is not positive. -/
def get_ent_name (b : List Nat) (strtab_addr : Nat) (addr : Nat)
    (has_str : Bool) (str_offs : Nat) : Option (List Nat) :=
  let a : Nat := if has_str then strtab_addr + str_offs else addr
  let mx : Int :=
    if has_str then (b.length : Int) - ((strtab_addr : Int) + str_offs)
    else (NAME_ENT_SIZE : Int)
  if mx > 0 then some (get_str (pySlice b a mx.toNat)) else none

/-- The header state of a TI COFF image (`CoffImage`): the fields
initialized by `CoffImage._load`, plus the owned buffer. -/
structure CoffImage where
  tid : Nat
  nsects : Nat
  entry : Nat
  strtab_addr : Nat
  blen : Nat
  data : List Nat
deriving DecidableEq, Repr

/-- `CoffImage._load`: decodes the 50-byte header and runs the
validation chain, in source order. -/
def CoffImage.load (data : List Nat) : Except CoffError CoffImage :=
  let dlen := data.length
  if dlen < HDR_ENT_SIZE then .error .notValidImage
  else
    let nsects := readU16 data 2
    let symtab_addr := readU32 data 8
    let nsyms := readU32 data 12
    let tid := readU16 data 20
    let magic := readU16 data 22
    let entry := readU32 data 38
    let sectab_end := HDR_ENT_SIZE + nsects * SECT_ENT_SIZE
    let strtab_addr := symtab_addr + nsyms * SYM_ENT_SIZE
    let strtab_len : Int := (dlen : Int) - (strtab_addr : Int)
    let strtab_end : Int := (strtab_addr : Int) + strtab_len
    if magic ≠ MAGIC then .error (.badMagic MAGIC magic)
    else if tid = 0 then .error .invalidTargetId
    else if sectab_end > dlen then .error .invalidSectionTable
    else if sectab_end > symtab_addr ∨ strtab_addr > dlen then
      .error .invalidSymbolTable
    else if strtab_len ≤ 0 ∨ strtab_end > (dlen : Int) then
      .error .invalidStringTable
    else .ok { tid := tid, nsects := nsects, entry := entry,
               strtab_addr := strtab_addr, blen := coffBlens tid,
               data := data }

/-- One iteration of the loop in `CoffImage._load_sect_tab`: unpacks the
48-byte entry at `50 + idx * 48`, resolves its name and constructs the
section. -/
def load_sect_ent (b : List Nat) (strtab_addr : Nat) (blen : Nat)
    (idx : Nat) : Except CoffError CoffSection :=
  let addr := HDR_ENT_SIZE + idx * SECT_ENT_SIZE
  let ent := fun j => readU32 b (addr + 4 * j)
  let name := get_ent_name b strtab_addr addr (ent 0 == 0) (ent 1)
  CoffSection.load name idx ent b.length blen

/-- The loop of `CoffImage._load_sect_tab`: constructs `count` sections
with indices `idx, idx + 1, ...`. -/
def load_sects (b : List Nat) (strtab_addr blen : Nat) :
    Nat → Nat → Except CoffError (List CoffSection)
  | _, 0 => .ok []
  | idx, count + 1 =>
    match load_sect_ent b strtab_addr blen idx with
    | .error e => .error e
    | .ok s =>
      match load_sects b strtab_addr blen (idx + 1) count with
      | .error e => .error e
      | .ok rest => .ok (s :: rest)

/-- The section table of a TI COFF image (`CoffSectionTable`): the
ordered sections (the name-keyed dict is recomputed by the name lookup
below). -/
structure CoffSectionTable where
  sects : List CoffSection
deriving DecidableEq, Repr

/-- The duplicate detection of `CoffSectionTable._load`: walks the
sections in order keeping the set of names seen so far, failing at the
first name already present. -/
def checkDup : List CoffSection → List (List Nat) → Except CoffError Unit
  | [], _ => .ok ()
  | s :: rest, seen =>
    if s.name ∈ seen then .error (.duplicateSection s.name)
    else checkDup rest (s.name :: seen)

/-- `CoffSectionTable._load` (via `__init__`): fails on a duplicate
name, otherwise stores the sections in file order. -/
def CoffSectionTable.load (sects : List CoffSection) :
    Except CoffError CoffSectionTable :=
  (checkDup sects []).map (fun _ => { sects := sects })

/-- `CoffImage._load_sect_tab`: builds all `nsects` sections, then the
table. -/
def CoffImage.load_sect_tab (img : CoffImage) :
    Except CoffError CoffSectionTable :=
  match load_sects img.data img.strtab_addr img.blen 0 img.nsects with
  | .error e => .error e
  | .ok sects => CoffSectionTable.load sects

/-- Python slice assignment `dst[offs : offs + len(src)] = src` (for
`offs + len(src) ≤ len(dst)` this replaces the range in place). -/
def listWrite (dst : List Nat) (offs : Nat) (src : List Nat) : List Nat :=
  dst.take offs ++ src ++ dst.drop (offs + src.length)

/-- The body of the loop in `CoffImage.copy_sects` for one section:
copy at the physical address if its range fits the window, else at the
virtual address if that range fits, else leave the destination alone. -/
def copy_step (buf : List Nat) (addr end_addr : Nat) (d : List Nat)
    (s : CoffSection) : List Nat :=
  if s.paddr ≥ addr ∧ s.paddr + s.dlen ≤ end_addr then
    listWrite d (s.paddr - addr) (s.data buf)
  else if s.vaddr ≥ addr ∧ s.vaddr + s.dlen ≤ end_addr then
    listWrite d (s.vaddr - addr) (s.data buf)
  else d

/-- `CoffImage.copy_sects`: walks the section table in order, copying
each fitting section into the destination window.  `tab` is the image's
section table (`self.sectab` in the source). -/
def CoffImage.copy_sects (img : CoffImage) (tab : CoffSectionTable)
    (addr : Nat) (dst : List Nat) : List Nat :=
  let end_addr := addr + dst.length
  tab.sects.foldl (copy_step img.data addr end_addr) dst

/-- `CoffSectionTable.__getitem__` with an `int` key: Python list
indexing (`self._sects[key]`), negative keys counting from the end;
`none` models `IndexError`. -/
def CoffSectionTable.getInt (t : CoffSectionTable) (k : Int) :
    Option CoffSection :=
  let i : Int := if k < 0 then k + t.sects.length else k
  if i < 0 then none else t.sects.get? i.toNat

/-- `CoffSectionTable.__getitem__` with a `str` key: the name-keyed
lookup (`self._tab[key]`); `none` models `KeyError`. -/
def CoffSectionTable.getName (t : CoffSectionTable) (nm : List Nat) :
    Option CoffSection :=
  t.sects.find? (fun s => s.name == nm)

/-- `dataops.align`.  Python `%` on `int` is floored modulo, which is
`Int.fmod`. -/
def align (value : Int) (a : Int) : Int :=
  if a = 0 then value
  else if value.fmod a = 0 then a
  else value + a - value.fmod a

/-! ## Concrete buffers used in witnesses and counterexamples -/

/-- A minimal valid 51-byte image: zero sections, symbol table at 50
with zero symbols, target id 1, the right magic, and a one-byte string
table. -/
def bufMin : List Nat :=
  List.replicate 8 0 ++ [50] ++ List.replicate 11 0 ++ [1, 0, 0x08, 0x01] ++
    List.replicate 27 0

/-- The first 50 bytes of `bufMin`: the same header, but with no byte
left for the string table. -/
def bufHdr50 : List Nat := bufMin.take 50

/-- A 50-byte buffer whose header is valid up to the section-table check
but declares its symbol table at address 0. -/
def bufSym : List Nat :=
  List.replicate 20 0 ++ [1, 0, 0x08, 0x01] ++ List.replicate 26 0

/-- A 103-byte image with one non-allocated section (flags 0) named
`.d`, `paddr = vaddr = 0x100`, raw length 4, data at offset 98 holding
`AA BB CC DD`, and a one-byte string table at 102. -/
def bufNA : List Nat :=
  [0, 0, 1] ++ List.replicate 5 0 ++ [102] ++ List.replicate 11 0 ++
    [1, 0, 0x08, 0x01] ++ List.replicate 26 0 ++
    [0x2E, 0x64] ++ List.replicate 7 0 ++ [1] ++ List.replicate 3 0 ++
    [1] ++ List.replicate 2 0 ++ [4] ++ List.replicate 3 0 ++ [98] ++
    List.replicate 27 0 ++ [0xAA, 0xBB, 0xCC, 0xDD, 0]

/-- A 99-byte image whose header passes every check but whose single
section entry points its name at string-table offset 60, past the end of
the buffer, so the section has no valid name. -/
def bufBS : List Nat :=
  [0, 0, 1] ++ List.replicate 5 0 ++ [98] ++ List.replicate 11 0 ++
    [1, 0, 0x08, 0x01] ++ List.replicate 30 0 ++ [60] ++
    List.replicate 44 0

/-- A concrete two-section table used to witness the lookup claims. -/
def sectA : CoffSection :=
  { name := [97], idx := 0, paddr := 0, vaddr := 0, daddr := 0, dlen := 0,
    flags := 0 }

/-- A second concrete section. -/
def sectB : CoffSection :=
  { name := [98], idx := 1, paddr := 0, vaddr := 0, daddr := 0, dlen := 0,
    flags := 0 }

/-- A concrete table of two sections. -/
def tabAB : CoffSectionTable := { sects := [sectA, sectB] }

/-- A 50-byte all-zero buffer (magic 0). -/
def bufZero50 : List Nat := List.replicate 50 0

/-- A 50-byte buffer with a valid magic but target id 0. -/
def bufTid0 : List Nat :=
  List.replicate 22 0 ++ [0x08, 0x01] ++ List.replicate 26 0

/-- A 50-byte buffer with valid magic and target id but one declared
section, so the section table overruns the buffer. -/
def bufSect1 : List Nat :=
  [0, 0, 1] ++ List.replicate 17 0 ++ [1, 0, 0x08, 0x01] ++
    List.replicate 26 0

/-- The single (non-allocated) section of `bufNA`. -/
def sectNA : CoffSection :=
  { name := [0x2E, 0x64], idx := 0, paddr := 0x100, vaddr := 0x100,
    daddr := 98, dlen := 4, flags := 0 }

/-- The image decoded from `bufNA`. -/
def imgNA : CoffImage :=
  { tid := 1, nsects := 1, entry := 0, strtab_addr := 102, blen := 1,
    data := bufNA }

/-- The section table built from `bufNA`. -/
def tabNA : CoffSectionTable := { sects := [sectNA] }

/-- `bufNA` with its section data bytes replaced, leaving the first 50
bytes and the length unchanged. -/
def bufNAmod : List Nat :=
  [0, 0, 1] ++ List.replicate 5 0 ++ [102] ++ List.replicate 11 0 ++
    [1, 0, 0x08, 0x01] ++ List.replicate 26 0 ++
    [0x2E, 0x64] ++ List.replicate 7 0 ++ [1] ++ List.replicate 3 0 ++
    [1] ++ List.replicate 2 0 ++ [4] ++ List.replicate 3 0 ++ [98] ++
    List.replicate 27 0 ++ [0x11, 0x22, 0x33, 0x44, 0]

/-- The image decoded from `bufBS`. -/
def imgBS : CoffImage :=
  { tid := 1, nsects := 1, entry := 0, strtab_addr := 98, blen := 1,
    data := bufBS }

/-- The header-derived fields of a construction result (everything a
successful `CoffImage._load` initializes except the stored buffer). -/
def hdrOf (r : Except CoffError CoffImage) :
    Except CoffError (Nat × Nat × Nat × Nat × Nat) :=
  r.map (fun i => (i.tid, i.nsects, i.entry, i.strtab_addr, i.blen))

/-- Destination index `j` is covered by the range `copy_sects` writes
for section `s` inside the window `[addr, end_addr)`: the physical range
when it fits, otherwise the virtual range when that fits. -/
def covers (addr end_addr : Nat) (s : CoffSection) (j : Nat) : Prop :=
  (s.paddr ≥ addr ∧ s.paddr + s.dlen ≤ end_addr ∧
    s.paddr - addr ≤ j ∧ j < s.paddr - addr + s.dlen) ∨
  (¬ (s.paddr ≥ addr ∧ s.paddr + s.dlen ≤ end_addr) ∧
    s.vaddr ≥ addr ∧ s.vaddr + s.dlen ≤ end_addr ∧
    s.vaddr - addr ≤ j ∧ j < s.vaddr - addr + s.dlen)

instance coversDecidable (addr end_addr : Nat) (s : CoffSection)
    (j : Nat) : Decidable (covers addr end_addr s j) := by
  unfold covers
  infer_instance

/-! ## Claim theorems -/

/-- C9: For every integer value and every non-zero alignment, when the value
is already an exact multiple of the alignment, `align` returns the alignment
value itself rather than the value; when the value is not a multiple, it
returns `value + alignment - (value mod alignment)` (Python floored modulo),
which for a positive alignment is the next multiple of the alignment above
the value; and `align value 0` returns the value unchanged. -/
theorem align_spec (v a : Int) :
    align v 0 = v ∧
    (a ≠ 0 → v.fmod a = 0 → align v a = a) ∧
    (a ≠ 0 → v.fmod a ≠ 0 → align v a = v + a - v.fmod a) ∧
    (0 < a → v.fmod a ≠ 0 →
      a ∣ align v a ∧ v < align v a ∧ align v a ≤ v + a) := by
  refine ⟨by simp [align], ?_, ?_, ?_⟩
  · intro ha h0
    simp [align, ha, h0]
  · intro ha h0
    simp [align, ha, h0]
  · intro ha h0
    have hne : a ≠ 0 := by omega
    have heq : align v a = v + a - v.fmod a := by simp [align, hne, h0]
    have hfe : v.fmod a = v % a := Int.fmod_eq_emod v (le_of_lt ha)
    have hnn : 0 ≤ v % a := Int.emod_nonneg v hne
    have hlt : v % a < a := Int.emod_lt_of_pos v ha
    have hd : a * (v / a) + v % a = v := Int.ediv_add_emod v a
    have h0e : v % a ≠ 0 := by rw [hfe] at h0; exact h0
    refine ⟨⟨v / a + 1, ?_⟩, by omega, by omega⟩
    rw [heq, hfe, mul_add, mul_one]
    linarith

/-- Witness for C9 at concrete inputs: 8 is a multiple of 4 and `align`
returns the alignment 4 itself; 9 is not and `align` returns 12. -/
theorem align_spec_witness :
    align 8 4 = 4 ∧ align 9 4 = 12 ∧
      (4 ∣ align 9 4 ∧ 9 < align 9 4 ∧ align 9 4 ≤ 9 + 4) :=
  ⟨(align_spec 8 4).2.1 (by decide) (by decide),
   ((align_spec 9 4).2.2.1 (by decide) (by decide)).trans (by decide),
   (align_spec 9 4).2.2.2 (by decide) (by decide)⟩

/-- C10: Section Table lookup by integer index follows Python sequence
indexing: for a table of `n` sections and `-n ≤ k < 0`, `table[k]` is the
section at position `n + k` (no error); the index lookup fails exactly
when `k ≥ n` or `k < -n`; lookup by name fails exactly when no section
bears that name. -/
theorem sectab_getitem_spec (t : CoffSectionTable) (k : Int) (nm : List Nat) :
    ((-(t.sects.length : Int)) ≤ k → k < 0 →
        t.getInt k = t.sects.get? (k + t.sects.length).toNat ∧
          (t.getInt k).isSome = true) ∧
    (t.getInt k = none ↔
        ((t.sects.length : Int) ≤ k ∨ k < -(t.sects.length : Int))) ∧
    (t.getName nm = none ↔ ∀ s ∈ t.sects, s.name ≠ nm) := by
  refine ⟨?_, ?_, ?_⟩
  · intro h1 h2
    have h3 : ¬ (k + (t.sects.length : Int) < 0) := by omega
    have h4 : (k + (t.sects.length : Int)).toNat < t.sects.length := by omega
    constructor
    · simp only [CoffSectionTable.getInt, if_pos h2, if_neg h3]
    · simp only [CoffSectionTable.getInt, if_pos h2, if_neg h3]
      rw [List.get?_eq_get h4]
      rfl
  · by_cases hk : k < 0
    · simp only [CoffSectionTable.getInt, if_pos hk]
      by_cases hneg : k + (t.sects.length : Int) < 0
      · rw [if_pos hneg]
        simp only [true_iff]
        omega
      · rw [if_neg hneg, List.get?_eq_none]
        omega
    · simp only [CoffSectionTable.getInt, if_neg hk]
      rw [List.get?_eq_none]
      omega
  · simp only [CoffSectionTable.getName, List.find?_eq_none, beq_iff_eq]

/-- Witness for C10 at concrete inputs: index -1 in a 2-section table
returns the section at position 1, and an unknown name is not found. -/
theorem sectab_getitem_witness :
    tabAB.getInt (-1) = some sectB ∧ tabAB.getName [99] = none := by
  have h := sectab_getitem_spec tabAB (-1) [99]
  refine ⟨?_, h.2.2.mpr (by decide)⟩
  rw [(h.1 (by decide) (by decide)).1]
  decide

/-- An or of two naturals is zero exactly when both are. -/
lemma natOr_eq_zero (x y : Nat) : x ||| y = 0 ↔ x = 0 ∧ y = 0 := by
  constructor
  · intro h
    refine ⟨Nat.eq_of_testBit_eq (fun i => ?_), Nat.eq_of_testBit_eq (fun i => ?_)⟩ <;>
    · have hb := congrArg (fun n => n.testBit i) h
      simp only [Nat.testBit_or, Nat.zero_testBit, Bool.or_eq_false_iff] at hb
      simp [hb.1, hb.2, Nat.zero_testBit]
  · rintro ⟨rfl, rfl⟩
    rfl

/-- The allocated predicate holds exactly when one of the three flag
bits is set. -/
lemma is_allocated_iff (f : Nat) :
    is_allocated f = true ↔
      (f &&& FLAG_TEXT ≠ 0 ∨ f &&& FLAG_DATA ≠ 0 ∨ f &&& FLAG_BSS ≠ 0) := by
  unfold is_allocated ALLOC_MASK
  rw [Nat.and_or_distrib_left, Nat.and_or_distrib_left]
  simp only [bne_iff_ne, ne_eq, natOr_eq_zero]
  tauto

/-- `coffBlens` in the claim's phrasing. -/
lemma coffBlens_eq (t : Nat) :
    coffBlens t = if t = 0x9D ∨ t = 0x98 then 2 else 1 := by
  unfold coffBlens
  by_cases h1 : t = 0x9D <;> by_cases h2 : t = 0x98 <;> simp [h1, h2]

/-- A successfully constructed section is exactly the record built from
the entry fields by `CoffSection._load`. -/
lemma coffsection_load_ok (nm : List Nat) (idx : Nat) (ent : Nat → Nat)
    (L blen : Nat) (s : CoffSection)
    (h : CoffSection.load (some nm) idx ent L blen = .ok s) :
    s = { name := nm, idx := idx, paddr := ent 2, vaddr := ent 3,
          daddr := ent 5,
          dlen := if is_allocated (ent 10) then ent 4 * blen else ent 4,
          flags := ent 10 } := by
  simp only [CoffSection.load] at h
  by_cases hc :
      ent 5 + (if is_allocated (ent 10) then ent 4 * blen else ent 4) > L
  · rw [if_pos hc] at h
    cases h
  · rw [if_neg hc] at h
    exact (Except.ok.inj h).symm

/-- C5: `CoffSection` construction raises an error if and only if the
resolved name is absent (the no-valid-name error, checked first) or the
computed extent `daddr + dlen` exceeds the buffer length (the
no-valid-data error); on success the section exposes its data as the
sub-range `[daddr, daddr + dlen)` of whatever buffer is passed at access
time (a view into the shared buffer, not a copy taken at construction). -/
theorem coffsection_load_spec (name : Option (List Nat)) (idx : Nat)
    (ent : Nat → Nat) (L blen : Nat) :
    (name = none →
        CoffSection.load name idx ent L blen =
          .error (.sectionNoValidName idx)) ∧
    (∀ nm, name = some nm →
        ent 5 + (if is_allocated (ent 10) then ent 4 * blen else ent 4) > L →
        CoffSection.load name idx ent L blen =
          .error (.sectionNoValidData idx)) ∧
    (∀ nm, name = some nm →
        ent 5 + (if is_allocated (ent 10) then ent 4 * blen else ent 4) ≤ L →
        ∃ s, CoffSection.load name idx ent L blen = .ok s ∧
          s.name = nm ∧ s.daddr = ent 5 ∧
          s.dlen = (if is_allocated (ent 10) then ent 4 * blen else ent 4) ∧
          ∀ buf, s.data buf = (buf.drop (ent 5)).take s.dlen) := by
  refine ⟨?_, ?_, ?_⟩
  · rintro rfl
    rfl
  · rintro nm rfl hgt
    simp only [CoffSection.load]
    rw [if_pos hgt]
  · rintro nm rfl hle
    refine ⟨{ name := nm, idx := idx, paddr := ent 2, vaddr := ent 3,
              daddr := ent 5,
              dlen := if is_allocated (ent 10) then ent 4 * blen else ent 4,
              flags := ent 10 }, ?_, rfl, rfl, rfl, ?_⟩
    · simp only [CoffSection.load]
      rw [if_neg (by omega)]
    · intro buf
      simp [CoffSection.data, pySlice]

/-- Witness for C5 at concrete inputs: an absent name fails with the
no-valid-name error; an oversized extent fails with the no-valid-data
error; a valid entry constructs. -/
theorem coffsection_load_witness :
    (CoffSection.load none 3 (fun _ => 0) 0 1 =
      .error (.sectionNoValidName 3)) ∧
    (CoffSection.load (some [97]) 2 (fun _ => 7) 0 1 =
      .error (.sectionNoValidData 2)) ∧
    (∃ s, CoffSection.load (some [97]) 0 (fun _ => 0) 5 1 = .ok s ∧
      s.name = [97] ∧ s.daddr = 0) := by
  refine ⟨(coffsection_load_spec none 3 (fun _ => 0) 0 1).1 rfl,
    (coffsection_load_spec (some [97]) 2 (fun _ => 7) 0 1).2.1 [97] rfl
      (by decide), ?_⟩
  obtain ⟨s, hs, hn, hd, -, -⟩ :=
    (coffsection_load_spec (some [97]) 0 (fun _ => 0) 5 1).2.2 [97] rfl
      (by decide)
  exact ⟨s, hs, hn, hd⟩

/-- C4: For every successfully constructed section, if any of the flag
bits TEXT (0x20), DATA (0x40) or BSS (0x80) is set then `dlen` is the
raw length field times the image's byte-length multiplier, which is 2
when the target id is 0x9D or 0x98 and 1 otherwise; if none of those
bits is set, `dlen` is the raw length field unscaled. -/
theorem section_dlen_scaling :
    (∀ (name : Option (List Nat)) (idx : Nat) (ent : Nat → Nat)
        (L tid : Nat) (s : CoffSection),
        CoffSection.load name idx ent L (coffBlens tid) = .ok s →
        ((ent 10 &&& FLAG_TEXT ≠ 0 ∨ ent 10 &&& FLAG_DATA ≠ 0 ∨
            ent 10 &&& FLAG_BSS ≠ 0) →
          s.dlen = ent 4 * (if tid = 0x9D ∨ tid = 0x98 then 2 else 1)) ∧
        ((ent 10 &&& FLAG_TEXT = 0 ∧ ent 10 &&& FLAG_DATA = 0 ∧
            ent 10 &&& FLAG_BSS = 0) →
          s.dlen = ent 4)) ∧
    (∀ (b : List Nat) (img : CoffImage), CoffImage.load b = .ok img →
        img.blen = if img.tid = 0x9D ∨ img.tid = 0x98 then 2 else 1) := by
  constructor
  · intro name idx ent L tid s h
    cases name with
    | none => cases h
    | some nm =>
      have hs := coffsection_load_ok nm idx ent L (coffBlens tid) s h
      subst hs
      constructor
      · intro halloc
        dsimp only
        rw [if_pos (is_allocated_iff (ent 10) |>.mpr halloc), coffBlens_eq]
      · intro hnone
        dsimp only
        have hfalse : ¬ is_allocated (ent 10) = true := by
          rw [is_allocated_iff]
          push_neg
          exact ⟨hnone.1, hnone.2.1, hnone.2.2⟩
        rw [if_neg hfalse]
  · intro b img h
    simp only [CoffImage.load] at h
    repeat' split at h
    all_goals cases h
    exact coffBlens_eq _

/-- Witness for C4 at concrete inputs: a TEXT section on target 0x9D is
scaled by 2; a flagless section keeps its raw length; a loaded image on
target id 1 has multiplier 1. -/
theorem section_dlen_scaling_witness :
    (({ name := [97], idx := 0, paddr := 0x20, vaddr := 0x20,
        daddr := 0x20, dlen := 64, flags := 0x20 } : CoffSection).dlen =
      0x20 * (if (0x9D : Nat) = 0x9D ∨ (0x9D : Nat) = 0x98 then 2
        else 1)) ∧
    (({ name := [97], idx := 0, paddr := 0, vaddr := 0, daddr := 0,
        dlen := 0, flags := 0 } : CoffSection).dlen = 0) ∧
    imgNA.blen =
      (if imgNA.tid = 0x9D ∨ imgNA.tid = 0x98 then 2 else 1) := by
  refine ⟨?_, ?_, ?_⟩
  · exact (section_dlen_scaling.1 (some [97]) 0 (fun _ => 0x20) 1000 0x9D
      _ (by decide)).1 (by decide)
  · exact (section_dlen_scaling.1 (some [97]) 0 (fun _ => 0) 5 7
      _ (by decide)).2 (by decide)
  · exact section_dlen_scaling.2 bufNA imgNA (by decide)

/-- C1: `CoffImage` construction runs its validation checks in a fixed
short-circuit order — buffer shorter than 50 bytes, magic (header field
8) different from 0x0108 (reporting expected and actual), target id 0,
section-table end `50 + nsects * 48` past the buffer, the symbol-table
extent check, the string-table check — and the first failing check
determines the single error; when every check passes, construction
succeeds. -/
theorem coffimage_load_chain (b : List Nat) :
    (b.length < 50 → CoffImage.load b = .error .notValidImage) ∧
    (¬ b.length < 50 → readU16 b 22 ≠ 0x0108 →
        CoffImage.load b = .error (.badMagic 0x0108 (readU16 b 22))) ∧
    (¬ b.length < 50 → readU16 b 22 = 0x0108 → readU16 b 20 = 0 →
        CoffImage.load b = .error .invalidTargetId) ∧
    (¬ b.length < 50 → readU16 b 22 = 0x0108 → readU16 b 20 ≠ 0 →
        50 + readU16 b 2 * 48 > b.length →
        CoffImage.load b = .error .invalidSectionTable) ∧
    (¬ b.length < 50 → readU16 b 22 = 0x0108 → readU16 b 20 ≠ 0 →
        ¬ 50 + readU16 b 2 * 48 > b.length →
        (50 + readU16 b 2 * 48 > readU32 b 8 ∨
          readU32 b 8 + readU32 b 12 * 18 > b.length) →
        CoffImage.load b = .error .invalidSymbolTable) ∧
    (¬ b.length < 50 → readU16 b 22 = 0x0108 → readU16 b 20 ≠ 0 →
        ¬ 50 + readU16 b 2 * 48 > b.length →
        ¬ (50 + readU16 b 2 * 48 > readU32 b 8 ∨
            readU32 b 8 + readU32 b 12 * 18 > b.length) →
        ((b.length : Int) - ((readU32 b 8 + readU32 b 12 * 18 : Nat) : Int)
            ≤ 0 ∨
          ((readU32 b 8 + readU32 b 12 * 18 : Nat) : Int) +
              ((b.length : Int) -
                ((readU32 b 8 + readU32 b 12 * 18 : Nat) : Int)) >
            (b.length : Int)) →
        CoffImage.load b = .error .invalidStringTable) ∧
    (¬ b.length < 50 → readU16 b 22 = 0x0108 → readU16 b 20 ≠ 0 →
        ¬ 50 + readU16 b 2 * 48 > b.length →
        ¬ (50 + readU16 b 2 * 48 > readU32 b 8 ∨
            readU32 b 8 + readU32 b 12 * 18 > b.length) →
        ¬ ((b.length : Int) -
              ((readU32 b 8 + readU32 b 12 * 18 : Nat) : Int) ≤ 0 ∨
            ((readU32 b 8 + readU32 b 12 * 18 : Nat) : Int) +
                ((b.length : Int) -
                  ((readU32 b 8 + readU32 b 12 * 18 : Nat) : Int)) >
              (b.length : Int)) →
        ∃ img, CoffImage.load b = .ok img) := by
  refine ⟨?_, ?_, ?_, ?_, ?_, ?_, ?_⟩
  · intro h1
    simp only [CoffImage.load, HDR_ENT_SIZE]
    rw [if_pos h1]
  · intro h1 h2
    simp only [CoffImage.load, HDR_ENT_SIZE, MAGIC]
    rw [if_neg h1, if_pos h2]
  · intro h1 h2 h3
    simp only [CoffImage.load, HDR_ENT_SIZE, MAGIC]
    rw [if_neg h1, if_neg (not_not_intro h2), if_pos h3]
  · intro h1 h2 h3 h4
    simp only [CoffImage.load, HDR_ENT_SIZE, MAGIC, SECT_ENT_SIZE]
    rw [if_neg h1, if_neg (not_not_intro h2), if_neg h3, if_pos h4]
  · intro h1 h2 h3 h4 h5
    simp only [CoffImage.load, HDR_ENT_SIZE, MAGIC, SECT_ENT_SIZE,
      SYM_ENT_SIZE]
    rw [if_neg h1, if_neg (not_not_intro h2), if_neg h3, if_neg h4,
      if_pos h5]
  · intro h1 h2 h3 h4 h5 h6
    simp only [CoffImage.load, HDR_ENT_SIZE, MAGIC, SECT_ENT_SIZE,
      SYM_ENT_SIZE]
    rw [if_neg h1, if_neg (not_not_intro h2), if_neg h3, if_neg h4,
      if_neg h5, if_pos h6]
  · intro h1 h2 h3 h4 h5 h6
    have hok : CoffImage.load b =
        .ok { tid := readU16 b 20, nsects := readU16 b 2,
              entry := readU32 b 38,
              strtab_addr := readU32 b 8 + readU32 b 12 * 18,
              blen := coffBlens (readU16 b 20), data := b } := by
      simp only [CoffImage.load, HDR_ENT_SIZE, MAGIC, SECT_ENT_SIZE,
        SYM_ENT_SIZE]
      rw [if_neg h1, if_neg (not_not_intro h2), if_neg h3, if_neg h4,
        if_neg h5, if_neg h6]
    exact ⟨_, hok⟩

/-- Witness for C1: one concrete buffer per stage of the chain. -/
theorem coffimage_load_chain_witness :
    CoffImage.load [] = .error .notValidImage ∧
    CoffImage.load bufZero50 =
      .error (.badMagic 0x0108 (readU16 bufZero50 22)) ∧
    CoffImage.load bufTid0 = .error .invalidTargetId ∧
    CoffImage.load bufSect1 = .error .invalidSectionTable ∧
    CoffImage.load bufSym = .error .invalidSymbolTable ∧
    CoffImage.load bufHdr50 = .error .invalidStringTable ∧
    (∃ img, CoffImage.load bufMin = .ok img) :=
  ⟨(coffimage_load_chain []).1 (by decide),
   (coffimage_load_chain bufZero50).2.1 (by decide) (by decide),
   (coffimage_load_chain bufTid0).2.2.1 (by decide) (by decide) (by decide),
   (coffimage_load_chain bufSect1).2.2.2.1 (by decide) (by decide)
     (by decide) (by decide),
   (coffimage_load_chain bufSym).2.2.2.2.1 (by decide) (by decide)
     (by decide) (by decide) (by decide),
   (coffimage_load_chain bufHdr50).2.2.2.2.2.1 (by decide) (by decide)
     (by decide) (by decide) (by decide) (by decide),
   (coffimage_load_chain bufMin).2.2.2.2.2.2 (by decide) (by decide)
     (by decide) (by decide) (by decide) (by decide)⟩

/-- C2 as stated is false: in `bufSym` the section-table end (50) lies
strictly after the declared symbol-table address (0) and the string
table address (0) is within the buffer, so by the claim no
invalid-symbol-table error should be raised, yet construction raises
exactly that error. -/
theorem coffimage_symtab_claim_counterexample :
    ¬ (CoffImage.load bufSym = .error .invalidSymbolTable ↔
        (50 + readU16 bufSym 2 * 48 ≤ readU32 bufSym 8 ∨
          readU32 bufSym 8 + readU32 bufSym 12 * 18 > bufSym.length)) := by
  decide

/-- C2 amended: after the header-size, magic, target-id and
section-table checks pass, the invalid-symbol-table error is raised
exactly when the section-table end `50 + nsects * 48` lies strictly
after the declared symbol-table address, or the computed string-table
address exceeds the buffer length. -/
theorem coffimage_symtab_check (b : List Nat) :
    ¬ b.length < 50 → readU16 b 22 = 0x0108 → readU16 b 20 ≠ 0 →
    ¬ 50 + readU16 b 2 * 48 > b.length →
    (CoffImage.load b = .error .invalidSymbolTable ↔
      (50 + readU16 b 2 * 48 > readU32 b 8 ∨
        readU32 b 8 + readU32 b 12 * 18 > b.length)) := by
  intro h1 h2 h3 h4
  simp only [CoffImage.load, HDR_ENT_SIZE, MAGIC, SECT_ENT_SIZE,
    SYM_ENT_SIZE]
  rw [if_neg h1, if_neg (not_not_intro h2), if_neg h3, if_neg h4]
  constructor
  · intro h
    by_contra hc
    rw [if_neg hc] at h
    split at h <;> cases h
  · intro h
    rw [if_pos h]

/-- Witness for C2's amended statement at `bufSym`: the overlap
condition holds there and the error is raised. -/
theorem coffimage_symtab_check_witness :
    CoffImage.load bufSym = .error .invalidSymbolTable :=
  (coffimage_symtab_check bufSym (by decide) (by decide) (by decide)
    (by decide)).mpr (by decide)

/-- A successfully constructed section has the index it was given. -/
lemma coffsection_load_idx (name : Option (List Nat)) (idx : Nat)
    (ent : Nat → Nat) (L blen : Nat) (s : CoffSection)
    (h : CoffSection.load name idx ent L blen = .ok s) : s.idx = idx := by
  cases name with
  | none => cases h
  | some nm => rw [coffsection_load_ok nm idx ent L blen s h]

/-- A section built by the table loop has the loop index. -/
lemma load_sect_ent_idx (b : List Nat) (st bl idx : Nat) (s : CoffSection)
    (h : load_sect_ent b st bl idx = .ok s) : s.idx = idx := by
  simp only [load_sect_ent] at h
  exact coffsection_load_idx _ _ _ _ _ _ h

/-- The table loop returns exactly `count` sections, with indices
`idx, idx + 1, ...` in order. -/
lemma load_sects_spec (b : List Nat) (st bl : Nat) :
    ∀ (count idx : Nat) (l : List CoffSection),
      load_sects b st bl idx count = .ok l →
      l.length = count ∧
        ∀ k (hk : k < l.length), (l.get ⟨k, hk⟩).idx = idx + k := by
  intro count
  induction count with
  | zero =>
    intro idx l h
    cases h
    exact ⟨rfl, fun k hk => absurd hk (by simp)⟩
  | succ n ih =>
    intro idx l h
    simp only [load_sects] at h
    split at h
    · cases h
    · rename_i s hs
      split at h
      · cases h
      · rename_i rest hrest
        cases h
        obtain ⟨hlen, hidx⟩ := ih (idx + 1) rest hrest
        refine ⟨by simp [hlen], ?_⟩
        intro k hk
        cases k with
        | zero => simpa using load_sect_ent_idx b st bl idx s hs
        | succ m =>
          have hm : m < rest.length := by
            simp only [List.length_cons] at hk
            omega
          have hgm := hidx m hm
          rw [List.get_cons_succ, hgm]
          omega

/-- If the duplicate check succeeds, the names are distinct and none
was in the seen set. -/
lemma checkDup_ok :
    ∀ (sects : List CoffSection) (seen : List (List Nat)),
      checkDup sects seen = .ok () →
      (sects.map CoffSection.name).Nodup ∧
        ∀ nm ∈ sects.map CoffSection.name, nm ∉ seen := by
  intro sects
  induction sects with
  | nil =>
    intro seen _
    exact ⟨List.nodup_nil, by simp⟩
  | cons s rest ih =>
    intro seen h
    simp only [checkDup] at h
    split at h
    · cases h
    · rename_i hnot
      obtain ⟨hnd, hmem⟩ := ih _ h
      refine ⟨?_, ?_⟩
      · rw [List.map_cons, List.nodup_cons]
        refine ⟨fun hin => ?_, hnd⟩
        exact hmem s.name hin (by simp)
      · intro nm hnm
        rw [List.map_cons, List.mem_cons] at hnm
        rcases hnm with heq | hin
        · subst heq
          exact hnot
        · intro hseen
          exact hmem nm hin (by simp [hseen])

/-- The duplicate check either succeeds or fails with a duplicate-name
error naming a name that is either already seen or occurs at least
twice. -/
lemma checkDup_cases :
    ∀ (sects : List CoffSection) (seen : List (List Nat)),
      checkDup sects seen = .ok () ∨
        ∃ nm, checkDup sects seen = .error (.duplicateSection nm) ∧
          nm ∈ sects.map CoffSection.name ∧
          (nm ∈ seen ∨ 2 ≤ (sects.map CoffSection.name).count nm) := by
  intro sects
  induction sects with
  | nil =>
    intro seen
    left
    rfl
  | cons s rest ih =>
    intro seen
    simp only [checkDup]
    by_cases hmem : s.name ∈ seen
    · right
      exact ⟨s.name, by rw [if_pos hmem], by simp, Or.inl hmem⟩
    · rw [if_neg hmem]
      rcases ih (s.name :: seen) with hok | ⟨nm, herr, hin, hcase⟩
      · left
        exact hok
      · right
        refine ⟨nm, herr, by simp [hin], ?_⟩
        rcases hcase with hseen | hcount
        · rcases List.mem_cons.mp hseen with heq | hseen2
          · right
            subst heq
            have h1 : 1 ≤ (rest.map CoffSection.name).count s.name :=
              List.count_pos_iff.mpr hin
            rw [List.map_cons]
            simp only [List.count_cons, beq_self_eq_true, if_true]
            omega
          · left
            exact hseen2
        · right
          rw [List.map_cons, List.count_cons]
          omega

/-- A successfully built table holds exactly the given sections and the
duplicate check passed. -/
lemma sectab_load_ok (sects : List CoffSection) (t : CoffSectionTable)
    (h : CoffSectionTable.load sects = .ok t) :
    checkDup sects [] = .ok () ∧ t = { sects := sects } := by
  unfold CoffSectionTable.load at h
  cases hc : checkDup sects [] with
  | error e =>
    rw [hc] at h
    cases h
  | ok u =>
    cases u
    rw [hc] at h
    exact ⟨rfl, (Except.ok.inj h).symm⟩

/-- C6: For every image whose section table builds successfully, the
table holds exactly `nsects` sections in file order with indices
`0 .. nsects - 1` and pairwise-distinct names; and when the section
names are not pairwise distinct, table construction fails with a
duplicate-name error identifying a name that occurs at least twice. -/
theorem sectab_build_spec :
    (∀ (img : CoffImage) (t : CoffSectionTable),
        img.load_sect_tab = .ok t →
        t.sects.length = img.nsects ∧
          (∀ k (hk : k < t.sects.length), (t.sects.get ⟨k, hk⟩).idx = k) ∧
          (t.sects.map CoffSection.name).Nodup) ∧
    (∀ sects : List CoffSection, ¬ (sects.map CoffSection.name).Nodup →
        ∃ nm, CoffSectionTable.load sects =
            .error (.duplicateSection nm) ∧
          2 ≤ (sects.map CoffSection.name).count nm) := by
  constructor
  · intro img t h
    simp only [CoffImage.load_sect_tab] at h
    split at h
    · cases h
    · rename_i sects hsects
      obtain ⟨hchk, rfl⟩ := sectab_load_ok sects t h
      obtain ⟨hlen, hidx⟩ := load_sects_spec img.data img.strtab_addr
        img.blen img.nsects 0 sects hsects
      exact ⟨hlen, fun k hk => by simpa using hidx k hk,
        (checkDup_ok sects [] hchk).1⟩
  · intro sects hnd
    rcases checkDup_cases sects [] with hok | ⟨nm, herr, _, hcase⟩
    · exact absurd (checkDup_ok sects [] hok).1 hnd
    · refine ⟨nm, ?_, ?_⟩
      · unfold CoffSectionTable.load
        rw [herr]
        rfl
      · rcases hcase with h0 | h2
        · simp at h0
        · exact h2

/-- Witness for C6: the table of `bufNA` has exactly `nsects` sections
with distinct names; a list with a repeated name fails with a
duplicate-name error naming it. -/
theorem sectab_build_witness :
    (tabNA.sects.length = imgNA.nsects ∧
      (tabNA.sects.map CoffSection.name).Nodup) ∧
    (∃ nm, CoffSectionTable.load [sectA, sectA] =
        .error (.duplicateSection nm) ∧
      2 ≤ (([sectA, sectA]).map CoffSection.name).count nm) := by
  constructor
  · have h := sectab_build_spec.1 imgNA tabNA (by decide)
    exact ⟨h.1, h.2.2⟩
  · exact sectab_build_spec.2 [sectA, sectA] (by decide)

/-- C8 as stated is false: `bufMin` and its 50-byte prefix `bufHdr50`
agree on the first 50 bytes, yet construction succeeds on the former
and fails on the latter (the string-table check also consults the total
buffer length). -/
theorem coffimage_first50_counterexample :
    bufMin.take 50 = bufHdr50.take 50 ∧
    (∃ img, CoffImage.load bufMin = .ok img) ∧
    CoffImage.load bufHdr50 = .error .invalidStringTable := by
  have himg : CoffImage.load bufMin =
      .ok { tid := 1, nsects := 0, entry := 0, strtab_addr := 50,
            blen := 1, data := bufMin } := by
    decide
  exact ⟨by decide, ⟨_, himg⟩, by decide⟩

/-- C8 amended: construction depends only on the first 50 bytes and the
total buffer length — two buffers agreeing there construct identically
(same error, or same header fields) — so an image whose header passes
all checks is constructed no matter what the section entries hold, and
per-section errors surface only when the section table is built on the
first `sectab` access: `bufBS` constructs although its only section has
no valid name, and that error is raised by the deferred table build. -/
theorem coffimage_lazy_sections :
    (∀ b1 b2 : List Nat, b1.take 50 = b2.take 50 → b1.length = b2.length →
        hdrOf (CoffImage.load b1) = hdrOf (CoffImage.load b2)) ∧
    (CoffImage.load bufBS = .ok imgBS ∧
      imgBS.load_sect_tab = .error (.sectionNoValidName 0)) := by
  constructor
  · intro b1 b2 ht hl
    have hb : ∀ i, i < 50 → byteAt b1 i = byteAt b2 i := by
      intro i hi
      have h1 : b1.get? i = (b1.take 50).get? i := (List.get?_take hi).symm
      have h2 : b2.get? i = (b2.take 50).get? i := (List.get?_take hi).symm
      unfold byteAt
      rw [List.getD_eq_getD_get?, List.getD_eq_getD_get?, h1, h2, ht]
    have h16 : ∀ i, i + 1 < 50 → readU16 b1 i = readU16 b2 i := by
      intro i hi
      unfold readU16
      rw [hb i (by omega), hb (i + 1) (by omega)]
    have h32 : ∀ i, i + 3 < 50 → readU32 b1 i = readU32 b2 i := by
      intro i hi
      unfold readU32
      rw [hb i (by omega), hb (i + 1) (by omega), hb (i + 2) (by omega),
        hb (i + 3) (by omega)]
    unfold hdrOf
    simp only [CoffImage.load]
    rw [hl, h16 2 (by omega), h32 8 (by omega), h32 12 (by omega),
      h16 20 (by omega), h16 22 (by omega), h32 38 (by omega)]
    split_ifs <;> simp [Except.map]
  · exact ⟨by decide, by decide⟩

/-- Witness for C8's amended statement: `bufNA` and `bufNAmod` differ
only in section-entry data bytes past offset 50, and construct the same
header. -/
theorem coffimage_lazy_sections_witness :
    hdrOf (CoffImage.load bufNA) = hdrOf (CoffImage.load bufNAmod) :=
  coffimage_lazy_sections.1 bufNA bufNAmod (by decide) (by decide)

/-- C3: contrary to the claim (and to the docstring of `copy_sects`,
which says it copies the sections allocated within target memory),
`copy_sects` never consults the allocated flag: in `bufNA` the only
section has flags 0 — not allocated — yet its data is copied into the
destination because its physical range fits the window. -/
theorem copy_sects_nonallocated :
    CoffImage.load bufNA = .ok imgNA ∧
    imgNA.load_sect_tab = .ok tabNA ∧
    (∀ s ∈ tabNA.sects, is_allocated s.flags = false) ∧
    imgNA.copy_sects tabNA 0x100 [0, 0, 0, 0] = [0xAA, 0xBB, 0xCC, 0xDD] := by
  refine ⟨by decide, by decide, by decide, by decide⟩

/-- An in-range slice assignment preserves the destination length. -/
lemma listWrite_length (d src : List Nat) (offs : Nat)
    (h : offs + src.length ≤ d.length) :
    (listWrite d offs src).length = d.length := by
  unfold listWrite
  rw [List.length_append, List.length_append, List.length_take,
    List.length_drop]
  omega

/-- An in-range slice assignment leaves every index outside the written
range unchanged. -/
lemma listWrite_getD_outside (d src : List Nat) (offs j : Nat)
    (h : offs + src.length ≤ d.length)
    (hj : j < offs ∨ offs + src.length ≤ j) :
    (listWrite d offs src).getD j 0 = d.getD j 0 := by
  unfold listWrite
  have htl : (d.take offs).length = offs := by
    rw [List.length_take]
    omega
  have hfl : ((d.take offs) ++ src).length = offs + src.length := by
    rw [List.length_append, htl]
  rcases hj with hj | hj
  · rw [List.getD_append _ _ _ _ (by rw [hfl]; omega),
      List.getD_append _ _ _ _ (by rw [htl]; omega)]
    rw [List.getD_eq_getD_get?, List.getD_eq_getD_get?, List.get?_take hj]
  · rw [List.getD_append_right _ _ _ _ (by rw [hfl]; omega), hfl]
    rw [List.getD_eq_getD_get?, List.getD_eq_getD_get?, List.get?_drop]
    have harg : offs + src.length + (j - (offs + src.length)) = j := by
      omega
    rw [harg]

/-- A section's data view is never longer than its declared `dlen`. -/
lemma data_length_le (s : CoffSection) (buf : List Nat) :
    (s.data buf).length ≤ s.dlen := by
  simp only [CoffSection.data, pySlice, List.length_take]
  exact Nat.min_le_left _ _

/-- One copy step preserves the destination length when the window
matches the destination. -/
lemma copy_step_length (buf : List Nat) (addr end_addr : Nat)
    (d : List Nat) (s : CoffSection) (hd : addr + d.length = end_addr) :
    (copy_step buf addr end_addr d s).length = d.length := by
  have hsrc := data_length_le s buf
  unfold copy_step
  split_ifs with h1 h2
  · exact listWrite_length _ _ _ (by omega)
  · exact listWrite_length _ _ _ (by omega)
  · rfl

/-- One copy step leaves every destination index it does not cover
unchanged. -/
lemma copy_step_frame (buf : List Nat) (addr end_addr : Nat)
    (d : List Nat) (s : CoffSection) (j : Nat)
    (hd : addr + d.length = end_addr)
    (hnc : ¬ covers addr end_addr s j) :
    (copy_step buf addr end_addr d s).getD j 0 = d.getD j 0 := by
  have hsrc := data_length_le s buf
  unfold covers at hnc
  unfold copy_step
  split_ifs with h1 h2
  · exact listWrite_getD_outside _ _ _ _ (by omega) (by omega)
  · exact listWrite_getD_outside _ _ _ _ (by omega) (by omega)
  · rfl

/-- The copy loop preserves the destination length and every index not
covered by some section. -/
lemma copy_fold_spec (buf : List Nat) (addr end_addr : Nat) :
    ∀ (sects : List CoffSection) (d : List Nat),
      addr + d.length = end_addr →
      ((sects.foldl (copy_step buf addr end_addr) d).length = d.length ∧
        ∀ j, (∀ s ∈ sects, ¬ covers addr end_addr s j) →
          (sects.foldl (copy_step buf addr end_addr) d).getD j 0 =
            d.getD j 0) := by
  intro sects
  induction sects with
  | nil =>
    intro d _
    exact ⟨rfl, fun j _ => rfl⟩
  | cons s rest ih =>
    intro d hd
    simp only [List.foldl_cons]
    have hlen := copy_step_length buf addr end_addr d s hd
    obtain ⟨ihlen, ihframe⟩ :=
      ih (copy_step buf addr end_addr d s) (by omega)
    refine ⟨by rw [ihlen, hlen], ?_⟩
    intro j hj
    rw [ihframe j (fun s2 hs2 => hj s2 (by simp [hs2]))]
    exact copy_step_frame buf addr end_addr d s j hd (hj s (by simp))

/-- C7: in `copy_sects` the physical-address fit is tested first, so a
section whose physical range fits is written at offset `paddr - addr`
even when the virtual range also fits; a section fitting neither range
leaves the destination untouched (no error); and the copy preserves the
destination length and every destination byte not covered by some copied
section's range. -/
theorem copy_sects_frame_spec (img : CoffImage) (tab : CoffSectionTable)
    (addr : Nat) (dst : List Nat)
    (htab : img.load_sect_tab = .ok tab) :
    (∀ s d, s.paddr ≥ addr → s.paddr + s.dlen ≤ addr + dst.length →
        copy_step img.data addr (addr + dst.length) d s =
          listWrite d (s.paddr - addr) (s.data img.data)) ∧
    (∀ s d, ¬ (s.paddr ≥ addr ∧ s.paddr + s.dlen ≤ addr + dst.length) →
        ¬ (s.vaddr ≥ addr ∧ s.vaddr + s.dlen ≤ addr + dst.length) →
        copy_step img.data addr (addr + dst.length) d s = d) ∧
    (img.copy_sects tab addr dst).length = dst.length ∧
    (∀ j, (∀ s ∈ tab.sects, ¬ covers addr (addr + dst.length) s j) →
        (img.copy_sects tab addr dst).getD j 0 = dst.getD j 0) := by
  refine ⟨?_, ?_, ?_, ?_⟩
  · intro s d hp1 hp2
    unfold copy_step
    rw [if_pos ⟨hp1, hp2⟩]
  · intro s d hp hv
    unfold copy_step
    rw [if_neg hp, if_neg hv]
  · simp only [CoffImage.copy_sects]
    exact (copy_fold_spec img.data addr (addr + dst.length) tab.sects
      dst rfl).1
  · intro j hj
    simp only [CoffImage.copy_sects]
    exact (copy_fold_spec img.data addr (addr + dst.length) tab.sects
      dst rfl).2 j hj

/-- Witness for C7 with the concrete image of `bufNA` and a window that
misses its only section: the destination is unchanged. -/
theorem copy_sects_frame_witness :
    (imgNA.copy_sects tabNA 0 [7, 7]).length = 2 ∧
    (imgNA.copy_sects tabNA 0 [7, 7]).getD 0 0 = [7, 7].getD 0 0 := by
  have h := copy_sects_frame_spec imgNA tabNA 0 [7, 7] (by decide)
  exact ⟨h.2.2.1, h.2.2.2 0 (by decide)⟩
